import Mathlib

/-!
Verification of the incremental block-range reconciliation engine of the
hypergrid-railway-indexer payment tracker, as implemented in the part_002
iteration of the tracker script (the file the claims cite).  The JavaScript
is shallowly embedded: numbers are Nat (block numbers, counts, timestamps in
milliseconds; USDC amounts are kept in exact integer micro-units, i.e. the
raw token value before the source divides by 1e6 — an order- and
equality-preserving rescaling), addresses and names are String, database
rows are structures, and fallible steps return Except.  Console logging and
the md5 state_validation_hash column are not modelled (they carry no state
the claims mention), with one exception treated explicitly below: a log
statement in the run loop references an identifier that is not bound in its
scope, and that reference error is modelled by providerLoopBody.

Note on line 368 of the source: the file is an ES module (it begins with ES
module import declarations), and updateLastProcessedBlock builds its state hash via
a call to require, which is not defined in an ES module.  Consequently that
function always throws a ReferenceError (after its own sanity check, which
throws first for oversized values) before reaching its UPDATE statement, so
it can never commit a write.  The embedding reproduces this.
-/

namespace PaymentTracker

/-- Default of the CONSERVATIVE_BLOCK_ADVANCE environment knob (line 20):
maximum blocks to advance when no transactions are found. -/
def CONSERVATIVE_BLOCK_ADVANCE : Nat := 100

/-- A provider entry as produced by fetchProviderEntries: namehash, label
path, the wallet note and the provider-id note. -/
structure Provider where
  namehash : String
  full_name : String
  provider_id : String
  wallet_address : String
deriving DecidableEq

/-- A raw token-transfer event as returned by the Etherscan tokentx API
(fields used by the tracker).  value is the raw integer token amount
(micro-USDC). -/
structure Tx where
  hash : String
  blockNumber : Nat
  timeStamp : Nat
  fromAddr : String
  toAddr : String
  value : Nat
  gasUsed : Nat
deriving DecidableEq

/-- An element of validTransactions as built at lines 291-301 of the source.
timestamp is in milliseconds (new Date(timeStamp * 1000)); valueUsdc is kept
in micro-units (the source stores value / 1e6). -/
structure VTx where
  txHash : String
  blockNumber : Nat
  timestamp : Nat
  fromAddress : String
  fromHypermapName : String
  toAddress : String
  toProviderId : String
  valueUsdc : Nat
  gasUsed : Nat
deriving DecidableEq

/-- A row of the hypermap_transactions table (tx_hash is the conflict key). -/
structure LedgerRow where
  txHash : String
  blockNumber : Nat
  timestamp : Nat
  fromAddress : String
  fromHypermapName : String
  toAddress : String
  toProviderId : String
  providerEntryName : String
  valueUsdc : Nat
  gasUsed : Nat
deriving DecidableEq

/-- The provider_leaderboard row for one provider, with the numeric fields
already parsed as integers the way getProviderCurrentStats does (absent
fields default to zero / null).  state_validation_hash is not modelled. -/
structure ProviderRow where
  last_processed_block : Nat
  total_usdc_received : Nat
  transaction_count : Nat
  unique_sender_count : Nat
  first_transaction_at : Option Nat
  last_transaction_at : Option Nat
  last_transaction_block : Nat
  processing_checkpoint : Nat
deriving DecidableEq

/-- The payments database restricted to one provider: its
hypermap_transactions rows and its provider_leaderboard row.  A provider
with no leaderboard row yet is represented by the all-zero row, which is
exactly what getProviderCurrentStats returns in that case and what the
upsert INSERT arm produces. -/
structure DB where
  ledger : List LedgerRow
  row : ProviderRow
deriving DecidableEq

/-- Outcome of processProviderTransactions (lines 250-254 and 326). -/
structure ReconcileResult where
  validTransactions : List VTx
  lastProcessedBlock : Nat
  reachedSafeHeight : Bool
deriving DecidableEq

/-- validateAndFixBlockNumber (lines 194-213): a stored block more than 1000
beyond the observed height is corrupted; if it also exceeds 10^8 it is
repaired by dropping the last digit (integer division by 10), otherwise it
is capped at the observed height. -/
def validateAndFixBlockNumber (blockNumber currentHeight : Nat) : Nat :=
  if currentHeight + 1000 < blockNumber then
    if 100000000 < blockNumber then blockNumber / 10
    else currentHeight
  else blockNumber

/-- updateLastProcessedBlock (lines 359-391).  The sanity check at line 364
throws for values above 10^8; otherwise line 368 evaluates
require, which is not defined in an ES module, so the function
throws a ReferenceError.  Either way it never reaches its UPDATE statement:
it always fails and never commits a write. -/
def updateLastProcessedBlock (db : DB) (lastProcessedBlock : Nat) :
    Except String DB :=
  if 100000000 < lastProcessedBlock then
    .error "Refusing to set unreasonable block number"
  else
    .error "ReferenceError: require is not defined"

/-- The toLowerCase of the source (applied to hex addresses), embedded over
the character list so that concrete instances evaluate by kernel
reduction. -/
def strToLower (s : String) : String := ⟨s.data.map Char.toLower⟩

/-- The comparison used at lines 267-269 to sort fetched transactions by
block number. -/
def txle (a b : Tx) : Prop := a.blockNumber ≤ b.blockNumber

instance : DecidableRel txle := fun a b => Nat.decLe a.blockNumber b.blockNumber

/-- The sort at lines 267-269 (ascending block number). -/
def sortTxs (l : List Tx) : List Tx := List.insertionSort txle l

/-- Building one validTransactions entry (lines 291-301). -/
def mkVTx (tx : Tx) (fullName : String) (provider : Provider) : VTx :=
  { txHash := tx.hash
    blockNumber := tx.blockNumber
    timestamp := tx.timeStamp * 1000
    fromAddress := tx.fromAddr
    fromHypermapName := fullName
    toAddress := tx.toAddr
    toProviderId := provider.provider_id
    valueUsdc := tx.value
    gasUsed := tx.gasUsed }

/-- One iteration of the loop at lines 271-303: transactions beyond the safe
height or before fromBlock are skipped; in-range transactions raise
maxBlockSeen and, when the sender resolves in the TBA lookup, are appended
to validTransactions.  The accumulator is (validTransactions, maxBlockSeen);
the lookup maps a lowercased address to the entry full name. -/
def scanStep (fromBlock safeBlockHeight : Nat) (provider : Provider)
    (tba : String → Option String) (acc : List VTx × Nat) (tx : Tx) :
    List VTx × Nat :=
  if safeBlockHeight < tx.blockNumber then acc
  else if tx.blockNumber < fromBlock then acc
  else
    let maxBlockSeen := max acc.2 tx.blockNumber
    match tba (strToLower tx.fromAddr) with
    | some fullName => (acc.1 ++ [mkVTx tx fullName provider], maxBlockSeen)
    | none => (acc.1, maxBlockSeen)

/-- The maxBlockSeen component of scanStep on its own (same guards, same
update), used to state what the loop tracks. -/
def maxStep (fromBlock safeBlockHeight : Nat) (m : Nat) (tx : Tx) : Nat :=
  if safeBlockHeight < tx.blockNumber then m
  else if tx.blockNumber < fromBlock then m
  else max m tx.blockNumber

/-- The sort (lines 267-269) followed by the whole loop (lines 271-303),
starting from empty validTransactions and maxBlockSeen = fromBlock - 1
(line 264). -/
def scannedOf (provider : Provider) (tba : String → Option String)
    (fromBlock safeBlockHeight : Nat) (transactions : List Tx) :
    List VTx × Nat :=
  (sortTxs transactions).foldl (scanStep fromBlock safeBlockHeight provider tba)
    ([], fromBlock - 1)

/-- processProviderTransactions (lines 227-327).  The fetch adapter is a
parameter (called with fromBlock and the safe height, like
fetchUsdcTransactions).  If validation changed the stored block, the fix is
persisted through updateLastProcessedBlock, whose failure propagates (the
source awaits it at line 240 with no local catch; logBlockChange swallows
its own errors and is not modelled).  Otherwise: before the safe height the
function fetches, sorts, scans, and decides the advance — a conservative
min(fromBlock + step, safeHeight) when the fetched list was empty, else
min(maxBlockSeen, safeHeight); at or past the safe height it returns a
no-op result (the mutated currentStats.last_processed_block it reports then
equals the validated block). -/
def processProviderTransactions (provider : Provider)
    (tba : String → Option String) (db : DB) (safeBlockHeight step : Nat)
    (fetch : Nat → Nat → List Tx) : Except String (DB × ReconcileResult) :=
  let stored := db.row.last_processed_block
  let validatedLastBlock := validateAndFixBlockNumber stored safeBlockHeight
  let afterFix : Except String DB :=
    if validatedLastBlock ≠ stored then updateLastProcessedBlock db validatedLastBlock
    else .ok db
  match afterFix with
  | .error e => .error e
  | .ok db =>
    let fromBlock := validatedLastBlock + 1
    if safeBlockHeight < fromBlock then
      .ok (db, ⟨[], validatedLastBlock, false⟩)
    else
      let transactions := fetch fromBlock safeBlockHeight
      let scanned := scannedOf provider tba fromBlock safeBlockHeight transactions
      let lastProcessedBlock :=
        if transactions.length = 0 then min (fromBlock + step) safeBlockHeight
        else min scanned.2 safeBlockHeight
      .ok (db, ⟨scanned.1, lastProcessedBlock,
        decide (safeBlockHeight ≤ lastProcessedBlock)⟩)

/-- One INSERT ... ON CONFLICT (tx_hash) DO NOTHING into
hypermap_transactions (lines 336-347): a duplicate hash is a no-op. -/
def insertLedgerRow (ledger : List LedgerRow) (r : LedgerRow) : List LedgerRow :=
  if ledger.any (fun q => q.txHash == r.txHash) then ledger else ledger ++ [r]

/-- The hypermap_transactions row built for one valid transaction; the
provider entry name comes from the provider argument (line 346). -/
def toLedgerRow (provider : Provider) (v : VTx) : LedgerRow :=
  { txHash := v.txHash
    blockNumber := v.blockNumber
    timestamp := v.timestamp
    fromAddress := v.fromAddress
    fromHypermapName := v.fromHypermapName
    toAddress := v.toAddress
    toProviderId := v.toProviderId
    providerEntryName := provider.full_name
    valueUsdc := v.valueUsdc
    gasUsed := v.gasUsed }

/-- All inserts of one batch, in order (the loop at lines 335-348). -/
def insertAllTx (ledger : List LedgerRow) (provider : Provider)
    (txs : List VTx) : List LedgerRow :=
  txs.foldl (fun led v => insertLedgerRow led (toLedgerRow provider v)) ledger

/-- The committed effect of updatePaymentRecords: only hypermap_transactions
rows change. -/
def insertsOnly (db : DB) (provider : Provider) (txs : List VTx) : DB :=
  { db with ledger := insertAllTx db.ledger provider txs }

/-- updatePaymentRecords (lines 329-357): one database transaction holding
only the transaction inserts.  The ok flag says whether its statements all
succeed; on failure the transaction rolls back and the state is unchanged
(the error is rethrown). -/
def updatePaymentRecords (db : DB) (provider : Provider)
    (validTransactions : List VTx) (ok : Bool) : Except String DB :=
  if ok then .ok (insertsOnly db provider validTransactions)
  else .error "updatePaymentRecords rolled back"

/-- Insertion-ordered deduplication, as the spread of a JS Set over the
lowercased sender addresses produces (line 404). -/
def setDedup (l : List String) : List String :=
  l.foldl (fun acc s => if s ∈ acc then acc else acc ++ [s]) []

/-- The COUNT(DISTINCT from_address) subquery at lines 408-414: distinct
stored sender addresses of rows paying this wallet, drawn from the given
sender list, strictly before the first block of the new batch. -/
def countExistingSenders (ledger : List LedgerRow) (wallet : String)
    (senders : List String) (beforeBlock : Nat) : Nat :=
  (setDedup ((ledger.filter (fun r =>
    r.toAddress == wallet && decide (r.fromAddress ∈ senders) &&
      decide (r.blockNumber < beforeBlock))).map (fun r => r.fromAddress))).length

/-- GREATEST over nullable timestamps, as Postgres computes it (nulls are
ignored unless both sides are null). -/
def omax : Option Nat → Option Nat → Option Nat
  | none, b => b
  | some a, none => some a
  | some a, some b => some (max a b)

/-- The committed effect of updateLeaderboardStatsIncremental (lines
393-463): its single upsert adds the batch totals and count, recomputes the
unique-sender count against senders already on record before the first new
block, merges first/last timestamps, and sets last_processed_block and
last_transaction_block to the given block — all in one statement, so these
fields move together. -/
def statsApply (db : DB) (provider : Provider) (newTransactions : List VTx)
    (lastProcessedBlock : Nat) : DB :=
  let currentStats := db.row
    let newTotalUsdc := (newTransactions.map (fun t => t.valueUsdc)).sum
    let newTxCount := newTransactions.length
    let uniqueNewSenders := setDedup (newTransactions.map (fun t => strToLower t.fromAddress))
    let newUniqueSenderCount :=
      if 0 < uniqueNewSenders.length then
        match newTransactions.head? with
        | some t0 =>
          let existingCount := countExistingSenders db.ledger provider.wallet_address
            uniqueNewSenders t0.blockNumber
          currentStats.unique_sender_count + (uniqueNewSenders.length - existingCount)
        | none => currentStats.unique_sender_count
      else currentStats.unique_sender_count
    let firstTx := currentStats.first_transaction_at.orElse
      (fun _ => (newTransactions.head?).map (fun t => t.timestamp))
    let lastTx := ((newTransactions.getLast?).map (fun t => t.timestamp)).orElse
      (fun _ => currentStats.last_transaction_at)
  { db with row :=
      { last_processed_block := lastProcessedBlock
        total_usdc_received := currentStats.total_usdc_received + newTotalUsdc
        transaction_count := currentStats.transaction_count + newTxCount
        unique_sender_count := newUniqueSenderCount
        first_transaction_at := currentStats.first_transaction_at.orElse (fun _ => firstTx)
        last_transaction_at := omax currentStats.last_transaction_at lastTx
        last_transaction_block := lastProcessedBlock
        processing_checkpoint := max currentStats.processing_checkpoint
          (lastProcessedBlock - 1000) } }

/-- updateLeaderboardStatsIncremental as a database transaction: the ok flag
says whether its statements succeed; on failure the transaction rolls back,
leaving the state unchanged. -/
def updateLeaderboardStatsIncremental (db : DB) (provider : Provider)
    (newTransactions : List VTx) (lastProcessedBlock : Nat) (ok : Bool) :
    Except String DB :=
  if ok then .ok (statsApply db provider newTransactions lastProcessedBlock)
  else .error "updateLeaderboardStatsIncremental rolled back"

/-- The apply sequence of the run loop for a non-empty batch (lines
506-508 plus the per-provider catch): updatePaymentRecords commits its own
transaction first, then updateLeaderboardStatsIncremental runs as a second,
separate transaction; an error leaves whatever was already committed. -/
def applyBatch (provider : Provider) (db : DB) (txs : List VTx)
    (lastProcessedBlock : Nat) (ok1 ok2 : Bool) : DB :=
  match updatePaymentRecords db provider txs ok1 with
  | .error _ => db
  | .ok db1 =>
    match updateLeaderboardStatsIncremental db1 provider txs lastProcessedBlock ok2 with
    | .error _ => db1
    | .ok db2 => db2

/-- fetchUsdcTransactions (lines 114-147) against a fixed upstream data set:
Etherscan returns the token transfers with block number in
[startblock, endblock], and the adapter keeps those whose recipient equals
the wallet (case-insensitively, line 132-134). -/
def fetchUsdcTransactions (walletAddress : String) (sourceTxs : List Tx)
    (startblock endblock : Nat) : List Tx :=
  sourceTxs.filter (fun t =>
    decide (startblock ≤ t.blockNumber) && decide (t.blockNumber ≤ endblock) &&
      (strToLower t.toAddr == strToLower walletAddress))

/-- The per-provider body of the run loop of runPaymentTracker (lines
493-530), for one provider against a fixed upstream data set: reconcile,
then — with transactions — the two apply transactions, or — with an empty
batch that reached the safe height — the bare watermark update; any thrown
error is caught by the per-provider catch, leaving the committed state.
Console logging is omitted here; the unbound identifier one of the log
statements dereferences is modelled separately by providerLoopBody.
Database statements themselves are taken to succeed (ok flags true): the
claims about this loop concern its failure-free executions. -/
def runProviderOnce (provider : Provider) (tba : String → Option String)
    (safeBlockHeight step : Nat) (sourceTxs : List Tx) (db : DB) : DB :=
  match processProviderTransactions provider tba db safeBlockHeight step
      (fetchUsdcTransactions provider.wallet_address sourceTxs) with
  | .error _ => db
  | .ok (db1, res) =>
    if 0 < res.validTransactions.length then
      match updatePaymentRecords db1 provider res.validTransactions true with
      | .error _ => db1
      | .ok db2 =>
        match updateLeaderboardStatsIncremental db2 provider res.validTransactions
            res.lastProcessedBlock true with
        | .error _ => db2
        | .ok db3 => db3
    else if res.reachedSafeHeight then
      match updateLastProcessedBlock db1 res.lastProcessedBlock with
      | .error _ => db1
      | .ok db2 => db2
    else db1

/-- Modelled from the spec: the Watermark Store contract validateAndRepair
(spec section 4.1), which the code does not implement as written — if the
stored watermark exceeds observedChainHeight plus the tolerance margin
(1000, the margin the code uses), correct by integer division when the
magnitude check (above 10^8) fires, else fall back to the last block
actually bearing a transaction for the provider (0 here meaning none on
record), else 0. -/
def validateAndRepairSpec (stored observedChainHeight lastTxBlock : Nat) : Nat :=
  if observedChainHeight + 1000 < stored then
    if 100000000 < stored then stored / 10
    else if lastTxBlock ≠ 0 then lastTxBlock
    else 0
  else stored

/-- The identifiers bound in the lexical scope of the provider loop body of
runPaymentTracker in part_002: the ES-module top level (imports, config
constants, the module functions), ambient Node globals the file uses,
runPaymentTracker local declarations, and the loop variable.  currentStats
is not among them: it is a local of processProviderTransactions and of
updateLeaderboardStatsIncremental, not of runPaymentTracker. -/
def runLoopScope : List String :=
  ["pg", "fetch", "config", "crypto", "Pool",
   "INDEXER_DATABASE_URL", "PAYMENTS_DATABASE_URL", "ETHERSCAN_API_KEY",
   "POLL_INTERVAL_MS", "USDC_CONTRACT_ADDRESS", "ETHERSCAN_API_URL",
   "BASE_CHAIN_ID", "MAX_RETRIES", "RETRY_DELAY_MS", "BLOCK_SAFETY_BUFFER",
   "CONSERVATIVE_BLOCK_ADVANCE",
   "findGridBetaHyprNamehash", "fetchProviderEntries", "buildTbaLookup",
   "getCurrentBlockHeight", "fetchUsdcTransactions", "getProviderCurrentStats",
   "validateAndFixBlockNumber", "logBlockChange", "processProviderTransactions",
   "updatePaymentRecords", "updateLastProcessedBlock",
   "updateLeaderboardStatsIncremental", "runPaymentTracker",
   "console", "process", "setTimeout", "setInterval", "Promise", "Date",
   "Math", "URL", "parseInt", "parseFloat", "JSON", "Error",
   "indexerDb", "paymentsDb", "gridBetaHyprHash", "providers", "tbaLookup",
   "currentBlockHeight", "safeBlockHeight", "provider"]

/-- The free identifiers the loop body reads, in evaluation order, up to and
including the subject of the template literal of the third log statement
(line 497), which dereferences currentStats before
processProviderTransactions is ever called. -/
def loopBodyReads : List String :=
  ["console", "provider", "console", "provider", "console", "currentStats"]

/-- Resolving one identifier against a scope; an unbound name is a
ReferenceError carrying the name. -/
def lookupIdent (scope : List String) (x : String) : Except String Unit :=
  if x ∈ scope then .ok () else .error x

/-- Resolving a sequence of identifier reads in order, stopping at the first
unbound one. -/
def evalReads (scope : List String) : List String → Except String Unit
  | [] => .ok ()
  | x :: xs =>
    match lookupIdent scope x with
    | .error e => .error e
    | .ok _ => evalReads scope xs

/-- The provider loop body of runPaymentTracker as written (lines 493-530):
it first evaluates the log statements, whose identifier reads include
currentStats; only if those resolve would it go on to reconcile and apply
(the runProviderOnce semantics).  The error value is the name whose
dereference raised the ReferenceError. -/
def providerLoopBody (provider : Provider) (tba : String → Option String)
    (safeBlockHeight step : Nat) (sourceTxs : List Tx) (db : DB) :
    Except String DB :=
  match evalReads runLoopScope loopBodyReads with
  | .error e => .error e
  | .ok _ => .ok (runProviderOnce provider tba safeBlockHeight step sourceTxs db)

/-! Helper lemmas about the embedded functions. -/

lemma updateLastProcessedBlock_error (db : DB) (b : Nat) :
    ∃ e, updateLastProcessedBlock db b = .error e := by
  unfold updateLastProcessedBlock
  split
  · exact ⟨_, rfl⟩
  · exact ⟨_, rfl⟩

lemma validateAndFixBlockNumber_id_of_le {b ch : Nat} (h : b ≤ ch) :
    validateAndFixBlockNumber b ch = b := by
  unfold validateAndFixBlockNumber
  rw [if_neg]
  omega

lemma scanStep_snd (fb sb : Nat) (p : Provider) (tba : String → Option String)
    (acc : List VTx × Nat) (tx : Tx) :
    (scanStep fb sb p tba acc tx).2 = maxStep fb sb acc.2 tx := by
  unfold scanStep maxStep
  by_cases h1 : sb < tx.blockNumber
  · simp [h1]
  · by_cases h2 : tx.blockNumber < fb
    · simp [h1, h2]
    · simp only [if_neg h1, if_neg h2]
      cases tba (strToLower tx.fromAddr) <;> rfl

lemma foldl_scan_snd (fb sb : Nat) (p : Provider) (tba : String → Option String)
    (l : List Tx) :
    ∀ acc, (l.foldl (scanStep fb sb p tba) acc).2 = l.foldl (maxStep fb sb) acc.2 := by
  induction l with
  | nil => intro acc; rfl
  | cons x xs ih =>
    intro acc
    simp only [List.foldl_cons]
    rw [ih, scanStep_snd]

lemma le_maxStep (fb sb : Nat) (m : Nat) (tx : Tx) : m ≤ maxStep fb sb m tx := by
  unfold maxStep
  split
  · exact le_refl m
  · split
    · exact le_refl m
    · exact le_max_left m tx.blockNumber

lemma le_foldl_maxStep (fb sb : Nat) (l : List Tx) :
    ∀ m, m ≤ l.foldl (maxStep fb sb) m := by
  induction l with
  | nil => intro m; exact le_refl m
  | cons x xs ih =>
    intro m
    simp only [List.foldl_cons]
    exact le_trans (le_maxStep fb sb m x) (ih _)

lemma maxStep_le (fb sb : Nat) {m : Nat} (tx : Tx) (hm : m ≤ sb) :
    maxStep fb sb m tx ≤ sb := by
  unfold maxStep
  split
  · exact hm
  · split
    · exact hm
    · omega

lemma foldl_maxStep_le (fb sb : Nat) (l : List Tx) :
    ∀ m, m ≤ sb → l.foldl (maxStep fb sb) m ≤ sb := by
  induction l with
  | nil => intro m hm; exact hm
  | cons x xs ih =>
    intro m hm
    simp only [List.foldl_cons]
    exact ih _ (maxStep_le fb sb x hm)

lemma elem_le_foldl_maxStep (fb sb : Nat) {tx : Tx} (l : List Tx)
    (h1 : fb ≤ tx.blockNumber) (h2 : tx.blockNumber ≤ sb) :
    ∀ m, tx ∈ l → tx.blockNumber ≤ l.foldl (maxStep fb sb) m := by
  induction l with
  | nil => intro m hmem; cases hmem
  | cons x xs ih =>
    intro m hmem
    simp only [List.foldl_cons]
    rcases List.mem_cons.1 hmem with hx | hxs
    · subst hx
      refine le_trans ?_ (le_foldl_maxStep fb sb xs _)
      unfold maxStep
      rw [if_neg (by omega), if_neg (by omega)]
      exact le_max_right m tx.blockNumber
    · exact ih _ hxs

lemma maxStep_swap (fb sb : Nat) (m : Nat) (x y : Tx) :
    maxStep fb sb (maxStep fb sb m x) y = maxStep fb sb (maxStep fb sb m y) x := by
  unfold maxStep
  by_cases hx1 : sb < x.blockNumber <;> by_cases hy1 : sb < y.blockNumber <;>
    by_cases hx2 : x.blockNumber < fb <;> by_cases hy2 : y.blockNumber < fb <;>
      simp only [if_pos, if_neg, hx1, hy1, hx2, hy2, if_true, if_false] <;>
        omega

lemma foldl_maxStep_perm (fb sb : Nat) {l1 l2 : List Tx} (h : l1.Perm l2) :
    ∀ m, l1.foldl (maxStep fb sb) m = l2.foldl (maxStep fb sb) m := by
  induction h with
  | nil => intro m; rfl
  | cons x hp ih =>
    intro m
    simp only [List.foldl_cons]
    exact ih _
  | swap x y l =>
    intro m
    simp only [List.foldl_cons]
    rw [maxStep_swap]
  | trans h1 h2 ih1 ih2 =>
    intro m
    rw [ih1, ih2]

lemma sortTxs_perm (l : List Tx) : (sortTxs l).Perm l :=
  List.perm_insertionSort txle l

lemma scannedOf_nil (p : Provider) (tba : String → Option String) (fb sb : Nat) :
    scannedOf p tba fb sb [] = ([], fb - 1) := rfl

lemma scannedOf_snd (p : Provider) (tba : String → Option String)
    (fb sb : Nat) (l : List Tx) :
    (scannedOf p tba fb sb l).2 = l.foldl (maxStep fb sb) (fb - 1) := by
  unfold scannedOf
  rw [foldl_scan_snd]
  exact foldl_maxStep_perm fb sb (sortTxs_perm l) _

lemma le_scannedOf_snd (p : Provider) (tba : String → Option String)
    (fb sb : Nat) (l : List Tx) : fb - 1 ≤ (scannedOf p tba fb sb l).2 := by
  rw [scannedOf_snd]
  exact le_foldl_maxStep fb sb l _

lemma scannedOf_snd_le (p : Provider) (tba : String → Option String)
    {fb sb : Nat} (l : List Tx) (h : fb - 1 ≤ sb) :
    (scannedOf p tba fb sb l).2 ≤ sb := by
  rw [scannedOf_snd]
  exact foldl_maxStep_le fb sb l _ h

lemma elem_le_scannedOf_snd (p : Provider) (tba : String → Option String)
    {fb sb : Nat} {tx : Tx} (l : List Tx) (hmem : tx ∈ l)
    (h1 : fb ≤ tx.blockNumber) (h2 : tx.blockNumber ≤ sb) :
    tx.blockNumber ≤ (scannedOf p tba fb sb l).2 := by
  rw [scannedOf_snd]
  exact elem_le_foldl_maxStep fb sb l h1 h2 _ hmem

lemma scan_fst_inrange (fb sb : Nat) (p : Provider) (tba : String → Option String)
    (l : List Tx) :
    ∀ acc, (∀ v ∈ acc.1, fb ≤ v.blockNumber ∧ v.blockNumber ≤ sb) →
      ∀ v ∈ (l.foldl (scanStep fb sb p tba) acc).1,
        fb ≤ v.blockNumber ∧ v.blockNumber ≤ sb := by
  induction l with
  | nil => intro acc hacc; exact hacc
  | cons x xs ih =>
    intro acc hacc
    simp only [List.foldl_cons]
    refine ih _ ?_
    intro v hv
    unfold scanStep at hv
    by_cases h1 : sb < x.blockNumber
    · rw [if_pos h1] at hv; exact hacc v hv
    · rw [if_neg h1] at hv
      by_cases h2 : x.blockNumber < fb
      · rw [if_pos h2] at hv; exact hacc v hv
      · rw [if_neg h2] at hv
        simp only at hv
        cases htb : tba (strToLower x.fromAddr) with
        | some nm =>
          rw [htb] at hv
          simp only [List.mem_append, List.mem_singleton] at hv
          rcases hv with hv | hv
          · exact hacc v hv
          · subst hv
            refine ⟨?_, ?_⟩ <;> simp only [mkVTx] <;> omega
        | none =>
          rw [htb] at hv
          exact hacc v hv

lemma scannedOf_fst_inrange (p : Provider) (tba : String → Option String)
    (fb sb : Nat) (l : List Tx) :
    ∀ v ∈ (scannedOf p tba fb sb l).1,
      fb ≤ v.blockNumber ∧ v.blockNumber ≤ sb := by
  exact scan_fst_inrange fb sb p tba (sortTxs l) ([], fb - 1)
    (by intro v hv; cases hv)

lemma filter_eq_nil_of_forall {α : Type} (q : α → Bool) (l : List α)
    (h : ∀ a ∈ l, q a = false) : l.filter q = [] := by
  induction l with
  | nil => rfl
  | cons x xs ih =>
    rw [List.filter_cons, h x (List.mem_cons_self x xs)]
    exact ih (fun a ha => h a (List.mem_cons_of_mem x ha))

lemma scanStep_skip (fb sb : Nat) (p : Provider) (tba : String → Option String)
    (acc : List VTx × Nat) (tx : Tx)
    (h : sb < tx.blockNumber ∨ tx.blockNumber < fb) :
    scanStep fb sb p tba acc tx = acc := by
  unfold scanStep
  rcases h with h | h
  · rw [if_pos h]
  · by_cases h1 : sb < tx.blockNumber
    · rw [if_pos h1]
    · rw [if_neg h1, if_pos h]

lemma foldl_scan_filter (fb sb : Nat) (p : Provider) (tba : String → Option String)
    (l : List Tx) :
    ∀ acc, l.foldl (scanStep fb sb p tba) acc =
      (l.filter (fun t => decide (fb ≤ t.blockNumber) &&
        decide (t.blockNumber ≤ sb))).foldl (scanStep fb sb p tba) acc := by
  induction l with
  | nil => intro acc; rfl
  | cons x xs ih =>
    intro acc
    by_cases hin : fb ≤ x.blockNumber ∧ x.blockNumber ≤ sb
    · have hq : (decide (fb ≤ x.blockNumber) && decide (x.blockNumber ≤ sb)) = true := by
        simp [hin.1, hin.2]
      rw [List.filter_cons, hq]
      simp only [List.foldl_cons]
      exact ih _
    · have hq : (decide (fb ≤ x.blockNumber) && decide (x.blockNumber ≤ sb)) = false := by
        rcases not_and_or.1 hin with h | h <;> simp [h]
      rw [List.filter_cons, hq]
      simp only [List.foldl_cons]
      rw [scanStep_skip fb sb p tba acc x (by omega)]
      exact ih _

lemma insertLedgerRow_mem {led : List LedgerRow} {r q : LedgerRow}
    (h : q ∈ insertLedgerRow led r) : q ∈ led ∨ q = r := by
  unfold insertLedgerRow at h
  split at h
  · exact .inl h
  · rcases List.mem_append.1 h with h | h
    · exact .inl h
    · exact .inr (List.mem_singleton.1 h)

lemma insertAllTx_mem {p : Provider} {txs : List VTx} :
    ∀ {led : List LedgerRow} {q : LedgerRow}, q ∈ insertAllTx led p txs →
      q ∈ led ∨ ∃ v ∈ txs, q = toLedgerRow p v := by
  induction txs with
  | nil => intro led q h; exact .inl h
  | cons v vs ih =>
    intro led q h
    unfold insertAllTx at h
    simp only [List.foldl_cons] at h
    rcases ih h with h | ⟨w, hw, hq⟩
    · rcases insertLedgerRow_mem h with h | h
      · exact .inl h
      · exact .inr ⟨v, List.mem_cons_self v vs, h⟩
    · exact .inr ⟨w, List.mem_cons_of_mem v hw, hq⟩

lemma proc_fix_error (p : Provider) (tba : String → Option String) (db : DB)
    (sb step : Nat) (F : Nat → Nat → List Tx)
    (hfix : validateAndFixBlockNumber db.row.last_processed_block sb ≠
      db.row.last_processed_block) :
    ∃ e, processProviderTransactions p tba db sb step F = .error e := by
  obtain ⟨e, he⟩ := updateLastProcessedBlock_error db
    (validateAndFixBlockNumber db.row.last_processed_block sb)
  refine ⟨e, ?_⟩
  unfold processProviderTransactions
  simp only [if_pos hfix, he]

lemma proc_noop (p : Provider) (tba : String → Option String) (db : DB)
    (sb step : Nat) (F : Nat → Nat → List Tx)
    (hfix : validateAndFixBlockNumber db.row.last_processed_block sb =
      db.row.last_processed_block)
    (hgt : sb < db.row.last_processed_block + 1) :
    processProviderTransactions p tba db sb step F =
      .ok (db, ⟨[], db.row.last_processed_block, false⟩) := by
  unfold processProviderTransactions
  simp only [hfix, ne_eq, not_true_eq_false, if_false, if_pos hgt]

lemma proc_fetch (p : Provider) (tba : String → Option String) (db : DB)
    (sb step : Nat) (F : Nat → Nat → List Tx)
    (hfix : validateAndFixBlockNumber db.row.last_processed_block sb =
      db.row.last_processed_block)
    (hle : db.row.last_processed_block + 1 ≤ sb) :
    processProviderTransactions p tba db sb step F =
      .ok (db, ⟨(scannedOf p tba (db.row.last_processed_block + 1) sb
          (F (db.row.last_processed_block + 1) sb)).1,
        (if (F (db.row.last_processed_block + 1) sb).length = 0 then
          min (db.row.last_processed_block + 1 + step) sb
         else min (scannedOf p tba (db.row.last_processed_block + 1) sb
          (F (db.row.last_processed_block + 1) sb)).2 sb),
        decide (sb ≤ (if (F (db.row.last_processed_block + 1) sb).length = 0 then
          min (db.row.last_processed_block + 1 + step) sb
         else min (scannedOf p tba (db.row.last_processed_block + 1) sb
          (F (db.row.last_processed_block + 1) sb)).2 sb))⟩) := by
  unfold processProviderTransactions
  simp only [hfix, ne_eq, not_true_eq_false, if_false, if_neg (by omega : ¬ sb <
    db.row.last_processed_block + 1)]

lemma runOnce_of_nil (p : Provider) (tba : String → Option String)
    (sb step : Nat) (T : List Tx) (db db1 : DB) (res : ReconcileResult)
    (hp : processProviderTransactions p tba db sb step
      (fetchUsdcTransactions p.wallet_address T) = .ok (db1, res))
    (hv : res.validTransactions = []) :
    runProviderOnce p tba sb step T db = db1 := by
  unfold runProviderOnce
  rw [hp]
  obtain ⟨e, he⟩ := updateLastProcessedBlock_error db1 res.lastProcessedBlock
  cases hb : res.reachedSafeHeight <;> simp [hv, hb, he]

lemma runOnce_of_stats (p : Provider) (tba : String → Option String)
    (sb step : Nat) (T : List Tx) (db db1 : DB) (res : ReconcileResult)
    (hp : processProviderTransactions p tba db sb step
      (fetchUsdcTransactions p.wallet_address T) = .ok (db1, res))
    (hv : res.validTransactions ≠ []) :
    runProviderOnce p tba sb step T db =
      statsApply (insertsOnly db1 p res.validTransactions) p
        res.validTransactions res.lastProcessedBlock := by
  unfold runProviderOnce
  rw [hp]
  have hlen : 0 < res.validTransactions.length := List.length_pos.2 hv
  simp [hlen, updatePaymentRecords, updateLeaderboardStatsIncremental]

lemma runOnce_cases (p : Provider) (tba : String → Option String)
    (sb step : Nat) (T : List Tx) (db : DB) :
    runProviderOnce p tba sb step T db = db ∨
    (validateAndFixBlockNumber db.row.last_processed_block sb =
        db.row.last_processed_block ∧
     db.row.last_processed_block + 1 ≤ sb ∧
     (scannedOf p tba (db.row.last_processed_block + 1) sb
        (fetchUsdcTransactions p.wallet_address T
          (db.row.last_processed_block + 1) sb)).1 ≠ [] ∧
     runProviderOnce p tba sb step T db =
       statsApply (insertsOnly db p (scannedOf p tba
           (db.row.last_processed_block + 1) sb
           (fetchUsdcTransactions p.wallet_address T
             (db.row.last_processed_block + 1) sb)).1) p
         (scannedOf p tba (db.row.last_processed_block + 1) sb
           (fetchUsdcTransactions p.wallet_address T
             (db.row.last_processed_block + 1) sb)).1
         (min (scannedOf p tba (db.row.last_processed_block + 1) sb
           (fetchUsdcTransactions p.wallet_address T
             (db.row.last_processed_block + 1) sb)).2 sb)) := by
  by_cases hfix : validateAndFixBlockNumber db.row.last_processed_block sb =
      db.row.last_processed_block
  · by_cases hno : sb < db.row.last_processed_block + 1
    · exact .inl (runOnce_of_nil p tba sb step T db db _
        (proc_noop p tba db sb step _ hfix hno) rfl)
    · have hle : db.row.last_processed_block + 1 ≤ sb := by omega
      have hp := proc_fetch p tba db sb step
        (fetchUsdcTransactions p.wallet_address T) hfix hle
      by_cases hval : (scannedOf p tba (db.row.last_processed_block + 1) sb
          (fetchUsdcTransactions p.wallet_address T
            (db.row.last_processed_block + 1) sb)).1 = []
      · exact .inl (runOnce_of_nil p tba sb step T db db _ hp hval)
      · refine .inr ⟨hfix, hle, hval, ?_⟩
        have hFne : ¬ (fetchUsdcTransactions p.wallet_address T
            (db.row.last_processed_block + 1) sb).length = 0 := by
          intro h0
          apply hval
          rw [List.length_eq_zero.1 h0, scannedOf_nil]
        rw [runOnce_of_stats p tba sb step T db db _ hp hval]
        simp only [if_neg hFne]
  · obtain ⟨e, he⟩ := proc_fix_error p tba db sb step
      (fetchUsdcTransactions p.wallet_address T) hfix
    left
    unfold runProviderOnce
    rw [he]

lemma runOnce_id_of_valid_nil (p : Provider) (tba : String → Option String)
    (sb step : Nat) (T : List Tx) (db : DB)
    (hfix : validateAndFixBlockNumber db.row.last_processed_block sb =
      db.row.last_processed_block)
    (hval : (scannedOf p tba (db.row.last_processed_block + 1) sb
      (fetchUsdcTransactions p.wallet_address T
        (db.row.last_processed_block + 1) sb)).1 = []) :
    runProviderOnce p tba sb step T db = db := by
  by_cases hno : sb < db.row.last_processed_block + 1
  · exact runOnce_of_nil p tba sb step T db db _
      (proc_noop p tba db sb step _ hfix hno) rfl
  · exact runOnce_of_nil p tba sb step T db db _
      (proc_fetch p tba db sb step _ hfix (by omega)) hval

/-- C6: re-running reconcile and apply with the same upstream data and no
intervening state change produces the same state (aggregate stats, ledger
and watermark) as running once.  On this code the second run never commits
anything: a run that applied a batch leaves the watermark at the highest
in-range block seen, so the second fetch over the remaining range is empty,
and the conservative advance an empty fetch computes is only ever persisted
through updateLastProcessedBlock, which always fails (line 368); runs that
applied nothing leave the state they found. -/
theorem c6_reconcile_apply_idempotent (p : Provider)
    (tba : String → Option String) (sb step : Nat) (T : List Tx) (db : DB) :
    runProviderOnce p tba sb step T (runProviderOnce p tba sb step T db) =
      runProviderOnce p tba sb step T db := by
  rcases runOnce_cases p tba sb step T db with h1 | ⟨hfix, hle, hval, h1⟩
  · rw [h1]
    exact h1
  · set L := fetchUsdcTransactions p.wallet_address T
      (db.row.last_processed_block + 1) sb with hL
    set scN := scannedOf p tba (db.row.last_processed_block + 1) sb L with hsc
    rw [h1]
    apply runOnce_id_of_valid_nil
    · show validateAndFixBlockNumber (min scN.2 sb) sb = min scN.2 sb
      exact validateAndFixBlockNumber_id_of_le (min_le_right _ _)
    · show (scannedOf p tba (min scN.2 sb + 1) sb
        (fetchUsdcTransactions p.wallet_address T (min scN.2 sb + 1) sb)).1 = []
      have hF3 : fetchUsdcTransactions p.wallet_address T
          (min scN.2 sb + 1) sb = [] := by
        apply filter_eq_nil_of_forall
        intro t ht
        by_contra hq
        rw [Bool.not_eq_false] at hq
        simp only [Bool.and_eq_true, decide_eq_true_eq, beq_iff_eq] at hq
        obtain ⟨⟨h1t, h2t⟩, h3t⟩ := hq
        have hbase := le_scannedOf_snd p tba
          (db.row.last_processed_block + 1) sb L
        simp only [Nat.add_sub_cancel] at hbase
        have hsW : db.row.last_processed_block ≤ min scN.2 sb := by
          rw [← hsc] at hbase
          exact le_min hbase (by omega)
        have htF : t ∈ L := by
          rw [hL]
          unfold fetchUsdcTransactions
          refine List.mem_filter.2 ⟨ht, ?_⟩
          simp only [Bool.and_eq_true, decide_eq_true_eq, beq_iff_eq]
          exact ⟨⟨by omega, h2t⟩, h3t⟩
        have htm : t.blockNumber ≤ scN.2 := by
          rw [hsc]
          exact elem_le_scannedOf_snd p tba L htF (by omega) h2t
        rcases min_choice scN.2 sb with hmc | hmc <;> omega
      rw [hF3, scannedOf_nil]

/-! Concrete fixtures used by witnesses and counterexamples. -/

/-- A provider under grid-beta.hypr with wallet 0xabc. -/
def provA : Provider := ⟨"0xnh", "alpha.grid-beta.hypr", "prov-1", "0xabc"⟩

/-- An allow-list containing the single member account 0xaaa. -/
def tbaA : String → Option String :=
  fun a => if a = "0xaaa" then some "alice.hypr" else none

/-- A provider with no leaderboard row yet (all-zero defaults). -/
def dbA : DB := ⟨[], ⟨0, 0, 0, 0, none, none, 0, 0⟩⟩

/-- A provider whose stored watermark 105 is already past safe height 100
but within the corruption tolerance. -/
def dbB : DB := ⟨[], ⟨105, 0, 0, 0, none, none, 0, 0⟩⟩

/-- The C2 witness scenario provider state: watermark 500. -/
def dbC : DB := ⟨[], ⟨500, 0, 0, 0, none, none, 0, 0⟩⟩

/-- A provider already caught up: watermark 700 against safe height 600. -/
def dbD : DB := ⟨[], ⟨700, 0, 0, 0, none, none, 0, 0⟩⟩

/-- The historically observed corrupted watermark 315228551. -/
def dbCor : DB := ⟨[], ⟨315228551, 0, 0, 0, none, none, 0, 0⟩⟩

/-- A provider at watermark 10, so the next fetch starts at block 11. -/
def dbStale : DB := ⟨[], ⟨10, 0, 0, 0, none, none, 0, 0⟩⟩

def txA10 : Tx := ⟨"0xt10", 10, 1000, "0xAAA", "0xabc", 5000000, 21000⟩

def txA50 : Tx := ⟨"0xt50", 50, 1050, "0xBBB", "0xabc", 7000000, 21000⟩

def txA90 : Tx := ⟨"0xt90", 90, 1090, "0xAAA", "0xabc", 9000000, 21000⟩

/-- A stale transfer at block 5, below the fetch window. -/
def txStale5 : Tx := ⟨"0xt5", 5, 900, "0xAAA", "0xabc", 1000000, 21000⟩

/-- The C4 scenario fetch: blocks 10, 50, 90 with senders allow, not-allow,
allow. -/
def fetchA : Nat → Nat → List Tx := fun _ _ => [txA10, txA50, txA90]

/-- A fetch adapter that returns no transactions for any range. -/
def fetchNone : Nat → Nat → List Tx := fun _ _ => []

/-- A fetch that returns a stale transaction at block 5 alongside an
in-range one at block 90. -/
def fetchStale : Nat → Nat → List Tx := fun _ _ => [txStale5, txA90]

/-- The valid transaction built from txA10. -/
def vtxA : VTx := mkVTx txA10 "alice.hypr" provA

/-! The claims. -/

/-- C1 counterexample: with stored watermark 105 (within tolerance of safe
height 100) the run is a successful no-op returning watermark 105, which
exceeds the safe height computed for the run — so the claim that the
returned watermark never exceeds safeHeight is false as stated. -/
theorem c1_counterexample :
    processProviderTransactions provA tbaA dbB 100 100 fetchNone =
      .ok (dbB, ⟨[], 105, false⟩) ∧ (100 : Nat) < 105 :=
  ⟨rfl, by omega⟩

/-- C1 (amended): whenever reconciliation returns successfully, the returned
watermark is at least the stored watermark (monotonicity holds: the
automatic corruption-repair path never returns successfully, because the
repair persist always throws), it exceeds the safe height only when the
stored watermark already did (it is bounded by max(stored, safeHeight)),
and the stored state is untouched. -/
theorem c1_watermark_monotone_bounded (p : Provider)
    (tba : String → Option String) (db : DB) (sb step : Nat)
    (F : Nat → Nat → List Tx) (db1 : DB) (res : ReconcileResult)
    (h : processProviderTransactions p tba db sb step F = .ok (db1, res)) :
    db.row.last_processed_block ≤ res.lastProcessedBlock ∧
    res.lastProcessedBlock ≤ max db.row.last_processed_block sb ∧
    db1 = db := by
  by_cases hfix : validateAndFixBlockNumber db.row.last_processed_block sb =
      db.row.last_processed_block
  · by_cases hno : sb < db.row.last_processed_block + 1
    · rw [proc_noop p tba db sb step F hfix hno] at h
      simp only [Except.ok.injEq, Prod.mk.injEq] at h
      obtain ⟨hdb, hres⟩ := h
      subst hdb
      subst hres
      exact ⟨le_refl _, le_max_left _ _, rfl⟩
    · have hle : db.row.last_processed_block + 1 ≤ sb := by omega
      rw [proc_fetch p tba db sb step F hfix hle] at h
      simp only [Except.ok.injEq, Prod.mk.injEq] at h
      obtain ⟨hdb, hres⟩ := h
      subst hdb
      subst hres
      refine ⟨?_, ?_, rfl⟩
      · dsimp only
        by_cases hlen : (F (db.row.last_processed_block + 1) sb).length = 0
        · rw [if_pos hlen]
          exact le_min (by omega) (by omega)
        · rw [if_neg hlen]
          refine le_min ?_ (by omega)
          have hb := le_scannedOf_snd p tba (db.row.last_processed_block + 1) sb
            (F (db.row.last_processed_block + 1) sb)
          simp only [Nat.add_sub_cancel] at hb
          exact hb
      · dsimp only
        by_cases hlen : (F (db.row.last_processed_block + 1) sb).length = 0
        · rw [if_pos hlen]
          exact le_trans (min_le_right _ _) (le_max_right _ _)
        · rw [if_neg hlen]
          exact le_trans (min_le_right _ _) (le_max_right _ _)
  · obtain ⟨e, he⟩ := proc_fix_error p tba db sb step F hfix
    rw [he] at h
    cases h

/-- C1 witness: the amended claim applied to the stored-watermark-105,
safe-height-100 no-op run. -/
theorem c1_watermark_monotone_bounded_witness :
    dbB.row.last_processed_block ≤ (105 : Nat) ∧
    (105 : Nat) ≤ max dbB.row.last_processed_block 100 ∧ dbB = dbB :=
  c1_watermark_monotone_bounded provA tbaA dbB 100 100 fetchNone dbB
    ⟨[], 105, false⟩ rfl

/-- C2 counterexample: watermark 0, safe height 101, so the fetch range has
size 101, greater than the conservative step 100; an empty fetch advances
the returned watermark to min(0 + 1 + 100, 101) = 101 — an advance of 101,
exceeding the conservative step, and it lands exactly on the safe height in
one step (reachedSafeHeight is true).  Both parts of the claim fail. -/
theorem c2_counterexample :
    processProviderTransactions provA tbaA dbA 101 100 fetchNone =
      .ok (dbA, ⟨[], 101, true⟩) ∧
    (100 : Nat) < 101 - dbA.row.last_processed_block :=
  ⟨rfl, by decide⟩

/-- C2 (amended): an empty fetch over a nonempty range advances the
returned watermark to min(watermark + 1 + step, safeHeight) — an advance of
at most step + 1 (the source adds the step to fromBlock = watermark + 1,
not to the watermark), capped at safeHeight; it falls short of safeHeight
in one step whenever the gap beyond the watermark exceeds step + 1. -/
theorem c2_conservative_advance (p : Provider) (tba : String → Option String)
    (db : DB) (sb step : Nat) (F : Nat → Nat → List Tx)
    (hfix : validateAndFixBlockNumber db.row.last_processed_block sb =
      db.row.last_processed_block)
    (hle : db.row.last_processed_block + 1 ≤ sb)
    (hempty : F (db.row.last_processed_block + 1) sb = []) :
    processProviderTransactions p tba db sb step F =
      .ok (db, ⟨[], min (db.row.last_processed_block + 1 + step) sb,
        decide (sb ≤ min (db.row.last_processed_block + 1 + step) sb)⟩) ∧
    min (db.row.last_processed_block + 1 + step) sb ≤
      db.row.last_processed_block + (step + 1) ∧
    (db.row.last_processed_block + (step + 1) < sb →
      min (db.row.last_processed_block + 1 + step) sb < sb) := by
  refine ⟨?_, ?_, ?_⟩
  · rw [proc_fetch p tba db sb step F hfix hle, hempty]
    simp [scannedOf_nil]
  · have hm := min_le_left (db.row.last_processed_block + 1 + step) sb
    omega
  · intro hlt
    rcases min_choice (db.row.last_processed_block + 1 + step) sb with h | h <;>
      omega

/-- C2 witness: the spec scenario — watermark 500, safe height 600, empty
fetch, step 100 — advances to min(500 + 1 + 100, 600) = 600. -/
theorem c2_conservative_advance_witness :
    (processProviderTransactions provA tbaA dbC 600 100 fetchNone =
      .ok (dbC, ⟨[], min (dbC.row.last_processed_block + 1 + 100) 600,
        decide (600 ≤ min (dbC.row.last_processed_block + 1 + 100) 600)⟩) ∧
     min (dbC.row.last_processed_block + 1 + 100) 600 ≤
       dbC.row.last_processed_block + (100 + 1) ∧
     (dbC.row.last_processed_block + (100 + 1) < 600 →
       min (dbC.row.last_processed_block + 1 + 100) 600 < 600)) ∧
    min (500 + 1 + 100) 600 = 600 :=
  ⟨c2_conservative_advance provA tbaA dbC 600 100 fetchNone rfl (by decide) rfl,
   by decide⟩

/-- C4: when the fetch returns at least one transaction, the returned
watermark is min(maxBlockSeen, safeHeight), where maxBlockSeen is the fold
of the in-range-guarded max over all fetched transactions — regardless of
allow-list match — starting from the validated watermark; and in the
concrete scenario (watermark 0, safe height 100, fetched blocks 10, 50, 90
with senders allow, not-allow, allow) the result is exactly the two records
for blocks 10 and 90 with the watermark advanced to 90. -/
theorem c4_advance_to_max_block_seen :
    (∀ (p : Provider) (tba : String → Option String) (db : DB) (sb step : Nat)
        (F : Nat → Nat → List Tx),
      validateAndFixBlockNumber db.row.last_processed_block sb =
        db.row.last_processed_block →
      db.row.last_processed_block + 1 ≤ sb →
      F (db.row.last_processed_block + 1) sb ≠ [] →
      processProviderTransactions p tba db sb step F =
        .ok (db, ⟨(scannedOf p tba (db.row.last_processed_block + 1) sb
            (F (db.row.last_processed_block + 1) sb)).1,
          min ((F (db.row.last_processed_block + 1) sb).foldl
            (maxStep (db.row.last_processed_block + 1) sb)
            db.row.last_processed_block) sb,
          decide (sb ≤ min ((F (db.row.last_processed_block + 1) sb).foldl
            (maxStep (db.row.last_processed_block + 1) sb)
            db.row.last_processed_block) sb)⟩)) ∧
    processProviderTransactions provA tbaA dbA 100 100 fetchA =
      .ok (dbA, ⟨[mkVTx txA10 "alice.hypr" provA, mkVTx txA90 "alice.hypr" provA],
        90, false⟩) := by
  constructor
  · intro p tba db sb step F hfix hle hne
    rw [proc_fetch p tba db sb step F hfix hle]
    have hlen : ¬ (F (db.row.last_processed_block + 1) sb).length = 0 := by
      simpa [List.length_eq_zero] using hne
    have h2 : (scannedOf p tba (db.row.last_processed_block + 1) sb
        (F (db.row.last_processed_block + 1) sb)).2 =
        (F (db.row.last_processed_block + 1) sb).foldl
          (maxStep (db.row.last_processed_block + 1) sb)
          db.row.last_processed_block := by
      rw [scannedOf_snd]
      simp only [Nat.add_sub_cancel]
    simp only [if_neg hlen, h2]
  · rfl

/-- C4 witness: the general law applied to the scenario, together with the
evaluation of its maxBlockSeen expression to 90. -/
theorem c4_advance_to_max_block_seen_witness :
    min ([txA10, txA50, txA90].foldl (maxStep 1 100) 0) 100 = 90 ∧
    processProviderTransactions provA tbaA dbA 100 100 fetchA =
      .ok (dbA, ⟨(scannedOf provA tbaA (dbA.row.last_processed_block + 1) 100
          (fetchA (dbA.row.last_processed_block + 1) 100)).1,
        min ((fetchA (dbA.row.last_processed_block + 1) 100).foldl
          (maxStep (dbA.row.last_processed_block + 1) 100)
          dbA.row.last_processed_block) 100,
        decide (100 ≤ min ((fetchA (dbA.row.last_processed_block + 1) 100).foldl
          (maxStep (dbA.row.last_processed_block + 1) 100)
          dbA.row.last_processed_block) 100)⟩) :=
  ⟨by decide, c4_advance_to_max_block_seen.1 provA tbaA dbA 100 100 fetchA rfl
    (by decide) (by decide)⟩

/-- C5 counterexample: a stored watermark of 5000 against observed height
1000 (beyond tolerance, below the magnitude threshold) is corrected by the
code to the observed height 1000, not to the last block bearing a
transaction (here 7) as the claim describes. -/
theorem c5_counterexample :
    validateAndFixBlockNumber 5000 1000 = 1000 ∧
    validateAndRepairSpec 5000 1000 7 = 7 ∧ (1000 : Nat) ≠ 7 :=
  ⟨rfl, rfl, by decide⟩

/-- C5 (amended): a stored watermark beyond observedHeight + 1000 is
corrected by integer division by 10 when the magnitude check (above 10^8)
fires, and otherwise capped at the observed chain height — the code never
consults the ledger for the last transaction-bearing block and applies no
further tolerance re-check; the concrete corruption 315228551 against safe
height 31522845 repairs to 31522855. -/
theorem c5_repair_division_else_cap :
    (∀ b ch : Nat, ch + 1000 < b →
      validateAndFixBlockNumber b ch =
        if 100000000 < b then b / 10 else ch) ∧
    validateAndFixBlockNumber 315228551 31522845 = 31522855 := by
  constructor
  · intro b ch h
    unfold validateAndFixBlockNumber
    rw [if_pos h]
  · decide

/-- C5 witness: the characterization applied at the documented corruption,
with the division evaluating to 31522855. -/
theorem c5_repair_division_else_cap_witness :
    validateAndFixBlockNumber 315228551 31522845 =
      (if 100000000 < (315228551 : Nat) then 315228551 / 10 else 31522845) ∧
    (if 100000000 < (315228551 : Nat) then 315228551 / 10 else 31522845) = 31522855 :=
  ⟨c5_repair_division_else_cap.1 315228551 31522845 (by decide), by decide⟩

/-- C7 counterexample: a provider whose fromBlock after validation exceeds
the safe height is not always a no-op — when validation changed the stored
watermark (here the corrupted 315228551 against safe height 31522845,
validated to 31522855 with fromBlock 31522856), persisting the fix throws,
so reconciliation errors instead of returning. -/
theorem c7_counterexample :
    processProviderTransactions provA tbaA dbCor 31522845 100 fetchNone =
      .error "ReferenceError: require is not defined" := rfl

/-- C7 (amended): for a provider whose validation left the stored watermark
unchanged and whose fromBlock = watermark + 1 exceeds the safe height,
reconcile returns immediately with an empty transaction set, the watermark
unchanged and reachedSafeHeight = false — a successful no-op, not an
error. -/
theorem c7_noop_when_caught_up (p : Provider) (tba : String → Option String)
    (db : DB) (sb step : Nat) (F : Nat → Nat → List Tx)
    (hfix : validateAndFixBlockNumber db.row.last_processed_block sb =
      db.row.last_processed_block)
    (hgt : sb < db.row.last_processed_block + 1) :
    processProviderTransactions p tba db sb step F =
      .ok (db, ⟨[], db.row.last_processed_block, false⟩) :=
  proc_noop p tba db sb step F hfix hgt

/-- C7 witness: watermark 700 against safe height 600 is a clean no-op. -/
theorem c7_noop_when_caught_up_witness :
    processProviderTransactions provA tbaA dbD 600 100 fetchNone =
      .ok (dbD, ⟨[], dbD.row.last_processed_block, false⟩) :=
  c7_noop_when_caught_up provA tbaA dbD 600 100 fetchNone rfl (by decide)

/-- C3 counterexample: with a successful insert transaction followed by a
failing stats transaction, the observable state keeps the inserted
transaction while stats and watermark are untouched — the whole unit does
not roll back, so inserts, stats and watermark are not one atomic unit. -/
theorem c3_counterexample :
    applyBatch provA dbA [vtxA] 10 true false =
      ⟨[toLedgerRow provA vtxA], dbA.row⟩ ∧
    (⟨[toLedgerRow provA vtxA], dbA.row⟩ : DB) ≠ dbA :=
  ⟨rfl, by decide⟩

/-- C3 (amended): the aggregate-stat update and the watermark advance do
commit atomically together (the leaderboard row either keeps all its
pre-batch values or carries the new totals, count and watermark at once),
and the transaction inserts are all-or-nothing among themselves; but the
inserts commit in a separate, earlier transaction, so a failure of the
stats step leaves the inserted transactions durably committed with no stats
update and no watermark advance. -/
theorem c3_stats_watermark_atomic_inserts_separate (p : Provider) (db : DB)
    (txs : List VTx) (lpb : Nat) (ok1 ok2 : Bool) (r : DB)
    (hr : r = applyBatch p db txs lpb ok1 ok2) :
    (r.row = db.row ∨
      (r.row.last_processed_block = lpb ∧
       r.row.transaction_count = db.row.transaction_count + txs.length ∧
       r.row.total_usdc_received = db.row.total_usdc_received +
         (txs.map (fun t => t.valueUsdc)).sum)) ∧
    (r.ledger = db.ledger ∨ r.ledger = insertAllTx db.ledger p txs) ∧
    (ok1 = true → ok2 = false →
      r.ledger = insertAllTx db.ledger p txs ∧ r.row = db.row) := by
  subst hr
  cases ok1
  · refine ⟨.inl rfl, .inl rfl, ?_⟩
    intro h
    exact absurd h (by decide)
  · cases ok2
    · refine ⟨.inl rfl, .inr rfl, ?_⟩
      intro _ _
      exact ⟨rfl, rfl⟩
    · refine ⟨.inr ⟨rfl, rfl, rfl⟩, .inr rfl, ?_⟩
      intro _ h
      exact absurd h (by decide)

/-- C3 witness: the amended claim at the concrete insert-then-failing-stats
run of the counterexample. -/
theorem c3_stats_watermark_atomic_inserts_separate_witness :
    ((applyBatch provA dbA [vtxA] 10 true false).row = dbA.row ∨
      ((applyBatch provA dbA [vtxA] 10 true false).row.last_processed_block = 10 ∧
       (applyBatch provA dbA [vtxA] 10 true false).row.transaction_count =
         dbA.row.transaction_count + [vtxA].length ∧
       (applyBatch provA dbA [vtxA] 10 true false).row.total_usdc_received =
         dbA.row.total_usdc_received + ([vtxA].map (fun t => t.valueUsdc)).sum)) ∧
    ((applyBatch provA dbA [vtxA] 10 true false).ledger = dbA.ledger ∨
      (applyBatch provA dbA [vtxA] 10 true false).ledger =
        insertAllTx dbA.ledger provA [vtxA]) ∧
    (true = true → false = false →
      (applyBatch provA dbA [vtxA] 10 true false).ledger =
        insertAllTx dbA.ledger provA [vtxA] ∧
      (applyBatch provA dbA [vtxA] 10 true false).row = dbA.row) :=
  c3_stats_watermark_atomic_inserts_separate provA dbA [vtxA] 10 true false _ rfl

/-- C8: an out-of-range fetched transaction (blockNumber below fromBlock or
above the safe height) is discarded without failing: every returned valid
transaction lies in [fromBlock, safeHeight]; the scan loop computes the
same validTransactions and maxBlockSeen as if the out-of-range transactions
were absent from its input; and every ledger row a run adds is in range, so
a discarded transaction never reaches the ledger. -/
theorem c8_out_of_range_discarded :
    (∀ (p : Provider) (tba : String → Option String) (db : DB) (sb step : Nat)
        (F : Nat → Nat → List Tx) (db1 : DB) (res : ReconcileResult),
      processProviderTransactions p tba db sb step F = .ok (db1, res) →
      ∀ v ∈ res.validTransactions,
        db.row.last_processed_block + 1 ≤ v.blockNumber ∧ v.blockNumber ≤ sb) ∧
    (∀ (fb sb : Nat) (p : Provider) (tba : String → Option String)
        (l : List Tx) (acc : List VTx × Nat),
      l.foldl (scanStep fb sb p tba) acc =
        (l.filter (fun t => decide (fb ≤ t.blockNumber) &&
          decide (t.blockNumber ≤ sb))).foldl (scanStep fb sb p tba) acc) ∧
    (∀ (p : Provider) (tba : String → Option String) (sb step : Nat)
        (T : List Tx) (db : DB) (r : LedgerRow),
      r ∈ (runProviderOnce p tba sb step T db).ledger →
      r ∈ db.ledger ∨ (db.row.last_processed_block + 1 ≤ r.blockNumber ∧
        r.blockNumber ≤ sb)) := by
  refine ⟨?_, ?_, ?_⟩
  · intro p tba db sb step F db1 res h v hv
    by_cases hfix : validateAndFixBlockNumber db.row.last_processed_block sb =
        db.row.last_processed_block
    · by_cases hno : sb < db.row.last_processed_block + 1
      · rw [proc_noop p tba db sb step F hfix hno] at h
        simp only [Except.ok.injEq, Prod.mk.injEq] at h
        obtain ⟨hdb, hres⟩ := h
        subst hres
        cases hv
      · have hle : db.row.last_processed_block + 1 ≤ sb := by omega
        rw [proc_fetch p tba db sb step F hfix hle] at h
        simp only [Except.ok.injEq, Prod.mk.injEq] at h
        obtain ⟨hdb, hres⟩ := h
        subst hres
        exact scannedOf_fst_inrange p tba (db.row.last_processed_block + 1) sb
          (F (db.row.last_processed_block + 1) sb) v hv
    · obtain ⟨e, he⟩ := proc_fix_error p tba db sb step F hfix
      rw [he] at h
      cases h
  · intro fb sb p tba l acc
    exact foldl_scan_filter fb sb p tba l acc
  · intro p tba sb step T db r hr
    rcases runOnce_cases p tba sb step T db with h1 | ⟨hfix, hle, hval, h1⟩
    · rw [h1] at hr
      exact .inl hr
    · rw [h1] at hr
      rcases insertAllTx_mem hr with hmem | ⟨v, hv, hq⟩
      · exact .inl hmem
      · right
        have hin := scannedOf_fst_inrange p tba
          (db.row.last_processed_block + 1) sb
          (fetchUsdcTransactions p.wallet_address T
            (db.row.last_processed_block + 1) sb) v hv
        subst hq
        exact hin

/-- C8 witness: with watermark 10 (fetch window starting at block 11) and a
fetch returning the stale block-5 transaction alongside the block-90 one,
the single returned record (block 90) lies in [11, 100]. -/
theorem c8_out_of_range_discarded_witness :
    dbStale.row.last_processed_block + 1 ≤
      (mkVTx txA90 "alice.hypr" provA).blockNumber ∧
    (mkVTx txA90 "alice.hypr" provA).blockNumber ≤ 100 :=
  c8_out_of_range_discarded.1 provA tbaA dbStale 100 100 fetchStale dbStale
    ⟨[mkVTx txA90 "alice.hypr" provA], 90, false⟩ rfl
    (mkVTx txA90 "alice.hypr" provA) (by decide)

/-- C9: with every fetch returning zero transactions, the tracker stalls
forever below the safe height — starting at watermark 0 against fixed safe
height 1000 with conservative step 100, the stored watermark is still 0
after any number of runs (the claim says it reaches 1000 within ten runs).
The run computes a conservative advance to 101 but reports
reachedSafeHeight = false, the loop persists the watermark only when the
safe height was reached, and the bare persist path always throws anyway
(line 368), so no run ever commits an advance. -/
theorem c9_zero_fetch_stalls_forever (n : Nat) :
    (((runProviderOnce provA tbaA 1000 100 [])^[n]) dbA).row.last_processed_block
      = 0 ∧
    (((runProviderOnce provA tbaA 1000 100 [])^[n]) dbA).row.last_processed_block
      ≠ 1000 := by
  have hfix : runProviderOnce provA tbaA 1000 100 [] dbA = dbA := by decide
  rw [Function.iterate_fixed hfix]
  exact ⟨rfl, by decide⟩

/-- C10: the success path of the provider loop is unreachable — the loop
body dereferences the unbound identifier currentStats inside its third log
statement before reconciliation ever runs, so for every provider and every
state the body raises a ReferenceError and the per-provider catch takes the
error path; no provider can have its transactions and watermark applied in
this iteration. -/
theorem c10_loop_body_reference_error (p : Provider)
    (tba : String → Option String) (sb step : Nat) (T : List Tx) (db : DB) :
    providerLoopBody p tba sb step T db = .error "currentStats" := rfl

end PaymentTracker
